import Mathlib

/-!
Shallow embedding of the Website-CMS backend (src/backend/server.js): the
authentication middleware, the JWT issue/verify pair, the credential store
(register/login) and the ownership-scoped page store (list/create/update/
delete), together with theorems settling the specification claims.

JavaScript strings that are manipulated character-wise (the authorization
header, split on a space character) are modelled as lists of characters
(`Str`); strings that are only compared or stored (emails, titles, page
content) are modelled as `String`.  SQLite NULL-able columns are `Option`;
absent JSON body fields are `Option` as well (`none` = the field is missing,
which in JS is `undefined`).
-/

namespace CMS

/-- JavaScript strings viewed as character lists, for `split(' ')`. -/
abbrev Str := List Char

/-- Model of JavaScript `s.split(' ')` on a string viewed as a character
list: splits on every single space, keeping empty fragments, and returns
`[[]]` on the empty string (JS `"".split(' ')` is `[""]`). -/
def splitSp : Str → List Str
  | [] => [[]]
  | c :: cs =>
    let r := splitSp cs
    if c = ' ' then [] :: r else (c :: r.headI) :: r.tail

/-- Decoded identity attached to the request (`req.user`), as embedded in the
token payload by `jwt.sign({ id: user.id, email: user.email }, ...)`. -/
structure Identity where
  id : Nat
  email : String
deriving DecidableEq, Repr

/-- Outcome of the `authenticateToken` middleware (server.js lines 52-67):
`unauthenticated` is `res.sendStatus(401)`, `forbidden` is
`res.sendStatus(403)`, and `proceed u` is `req.user = u; next()` — only in
the `proceed` case does the request reach a page route. -/
inductive AuthResult where
  | unauthenticated
  | forbidden
  | proceed (user : Identity)
deriving DecidableEq, Repr

/-- HTTP status the middleware sends when it short-circuits the request
(`none` when it calls `next()` instead). -/
def AuthResult.sentStatus : AuthResult → Option Nat
  | .unauthenticated => some 401
  | .forbidden => some 403
  | .proceed _ => none

/-- Model of `const token = authHeader && authHeader.split(' ')[1]` followed
by the `token == null` check: `none` means the JS value was `undefined`
(header absent, or no second space-separated part), which the middleware
rejects with 401.  An empty header string is falsy in JS, so `"" && ...`
short-circuits to `""` itself, which is NOT `== null` and is passed on to
verification. -/
def extractToken : Option Str → Option Str
  | none => none
  | some s => if s = [] then some [] else (splitSp s)[1]?

/-- Model of the `authenticateToken` middleware, parameterised by the token
verification function (`jwt.verify` with the server secret; `none` models
the error callback argument being set). -/
def authenticateToken (verify : Str → Option Identity) (authHeader : Option Str) :
    AuthResult :=
  match extractToken authHeader with
  | none => .unauthenticated
  | some t =>
    match verify t with
    | none => .forbidden
    | some u => .proceed u

/-- JWT payload as produced by `jwt.sign({ id, email }, JWT_SECRET,
{ expiresIn: '1h' })`: the library adds `iat` (issued-at) and
`exp = iat + 3600` (seconds). -/
structure JwtPayload where
  id : Nat
  email : String
  iat : Nat
  exp : Nat
deriving DecidableEq, Repr

/-- A signed token: the payload plus the key it was signed with (an HMAC
signature is valid exactly when verification uses the signing key, which is
what the `signedWith` field captures). -/
structure SignedToken where
  payload : JwtPayload
  signedWith : String
deriving DecidableEq, Repr

/-- Model of `jwt.sign({ id: user.id, email: user.email }, JWT_SECRET,
{ expiresIn: '1h' })` at (integer) time `now` in seconds. -/
def jwtSign (secret : String) (uid : Nat) (email : String) (now : Nat) : SignedToken :=
  { payload := { id := uid, email := email, iat := now, exp := now + 3600 }
    signedWith := secret }

/-- Outcome of `jwt.verify`: signature failure, expiry, or the decoded
claims. -/
inductive VerifyOutcome where
  | invalidToken
  | expiredToken
  | valid (u : Identity)
deriving DecidableEq, Repr

/-- Model of `jwt.verify(token, JWT_SECRET, cb)` at time `now`: the
signature check fails unless the token was signed with the same secret;
a token is expired when `now` has reached its `exp` claim. -/
def jwtVerify (secret : String) (tok : SignedToken) (now : Nat) : VerifyOutcome :=
  if tok.signedWith ≠ secret then .invalidToken
  else if tok.payload.exp ≤ now then .expiredToken
  else .valid { id := tok.payload.id, email := tok.payload.email }

/-- The verification callback inside `authenticateToken` (server.js lines
60-66): any verification error is answered with 403, success attaches the
decoded payload and proceeds. -/
def verifyCallback : VerifyOutcome → AuthResult
  | .valid u => .proceed u
  | .invalidToken => .forbidden
  | .expiredToken => .forbidden

/-- A row of the `users` table: `password` holds the bcrypt hash. -/
structure User where
  id : Nat
  email : String
  password : String
deriving DecidableEq, Repr

/-- Response of `POST /api/register` (server.js lines 73-97). -/
inductive RegisterResult where
  | validationError (msg : String)
  | duplicateEmail (msg : String)
  | created (msg : String) (userId : Nat)
deriving DecidableEq, Repr

/-- HTTP status of each register response. -/
def RegisterResult.status : RegisterResult → Nat
  | .validationError _ => 400
  | .duplicateEmail _ => 409
  | .created _ _ => 201

/-- Model of `POST /api/register`: JS `!email || !password` is true exactly
when a field is absent or the empty string (both modelled as `""`); the
`INSERT` hits the UNIQUE constraint on `email` exactly when some stored row
already has that email, and the SQLITE_CONSTRAINT error is mapped to 409;
otherwise the row `(nextId, email, hash password)` is inserted and 201 is
returned with `this.lastID = nextId`.  `hashPw` abstracts
`bcrypt.hash(password, 10)`. -/
def register (db : List User) (hashPw : String → String) (nextId : Nat)
    (email password : String) : RegisterResult × List User :=
  if email = "" ∨ password = "" then
    (.validationError "Email and password are required.", db)
  else if db.any (fun u => u.email == email) then
    (.duplicateEmail "Email already in use.", db)
  else
    (.created "User created successfully." nextId,
      db ++ [{ id := nextId, email := email, password := hashPw password }])

/-- Response of `POST /api/login` (server.js lines 100-125). -/
inductive LoginResult where
  | validationError (msg : String)
  | invalidCredentials (msg : String)
  | ok (accessToken : SignedToken)
deriving DecidableEq, Repr

/-- HTTP status of each login response. -/
def LoginResult.status : LoginResult → Nat
  | .validationError _ => 400
  | .invalidCredentials _ => 401
  | .ok _ => 200

/-- Model of `POST /api/login`: missing fields → 400; `db.get` on
`SELECT * FROM users WHERE email = ?` returns the first matching row
(`List.find?`); no row → 401 "Invalid credentials."; a row whose stored
hash does not match (`bcrypt.compare`, abstracted as `checkPw password
storedHash`) → the same 401 "Invalid credentials."; otherwise a JWT for
the id and email of the row, expiring in 1 hour. -/
def login (db : List User) (checkPw : String → String → Bool)
    (secret : String) (now : Nat) (email password : String) : LoginResult :=
  if email = "" ∨ password = "" then
    .validationError "Email and password are required."
  else
    match db.find? (fun u => u.email == email) with
    | none => .invalidCredentials "Invalid credentials."
    | some u =>
      if checkPw password u.password then
        .ok (jwtSign secret u.id u.email now)
      else
        .invalidCredentials "Invalid credentials."

/-- A row of the `pages` table.  The `content` column has no NOT NULL
constraint, so it is `Option String` (`none` = SQL NULL, which an update
with an absent body field stores). -/
structure Page where
  id : Nat
  title : String
  content : Option String
  userId : Nat
deriving DecidableEq, Repr

/-- A row of the `SELECT id, title, content FROM pages` projection returned
by `GET /api/pages`. -/
structure Row where
  id : Nat
  title : String
  content : Option String
deriving DecidableEq, Repr

/-- Model of `GET /api/pages` (server.js lines 130-140): all rows whose
`userId` matches the authenticated user, projected to id/title/content. -/
def listPages (pages : List Page) (userId : Nat) : List Row :=
  (pages.filter (fun p => p.userId == userId)).map
    (fun p => { id := p.id, title := p.title, content := p.content })

/-- JavaScript `content || ''`: the empty string (the only falsy string)
and an absent field both collapse to `""`. -/
def jsOrEmpty : Option String → String
  | none => ""
  | some s => if s = "" then "" else s

/-- Response of `POST /api/pages` (server.js lines 143-158).  The success
body echoes the raw request fields next to `this.lastID`:
`{ id, title, content, userId }` — the `content` field is the request
value, so it is absent (`none`) when the request omitted it, even though
the stored row defaults to the empty string. -/
inductive CreateResult where
  | validationError (msg : String)
  | created (id : Nat) (title : String) (content : Option String) (userId : Nat)
deriving DecidableEq, Repr

/-- HTTP status of each create response. -/
def CreateResult.status : CreateResult → Nat
  | .validationError _ => 400
  | .created _ _ _ _ => 201

/-- Model of `POST /api/pages`: `!title` (absent or empty) → 400 and
nothing stored; otherwise insert `(nextId, title, content || '', userId)`
with `userId` taken from the verified token, and answer 201 with the body
described at `CreateResult`. -/
def createPage (pages : List Page) (nextId userId : Nat)
    (title content : Option String) : CreateResult × List Page :=
  match title with
  | none => (.validationError "Title is required.", pages)
  | some t =>
    if t = "" then (.validationError "Title is required.", pages)
    else
      (.created nextId t content userId,
        pages ++ [{ id := nextId, title := t, content := some (jsOrEmpty content),
                    userId := userId }])

/-- The `WHERE id = ? AND userId = ?` condition shared by the update and
delete statements. -/
def pageMatch (pid uid : Nat) (p : Page) : Bool :=
  p.id == pid && p.userId == uid

/-- Effect of `UPDATE pages SET title = ?, content = ?` on one row: a row
matching the WHERE condition gets both columns overwritten (`content` is
the raw body field, NULL when absent), any other row is untouched. -/
def updFun (pid uid : Nat) (t : String) (c : Option String) (p : Page) : Page :=
  if pageMatch pid uid p then { p with title := t, content := c } else p

/-- Response of `PUT /api/pages/:id` (server.js lines 161-181). -/
inductive UpdateResult where
  | validationError (msg : String)
  | notFoundOrForbidden (msg : String)
  | updated (msg : String)
deriving DecidableEq, Repr

/-- HTTP status of each update response. -/
def UpdateResult.status : UpdateResult → Nat
  | .validationError _ => 400
  | .notFoundOrForbidden _ => 404
  | .updated _ => 200

/-- Model of `PUT /api/pages/:id`: `!title` → 400 and the statement never
runs; otherwise `UPDATE pages SET title = ?, content = ? WHERE id = ? AND
userId = ?` overwrites both columns of every matching row, and
`this.changes = 0` — no row has both the requested id and the userId of
the caller — is answered with 404. -/
def updatePage (pages : List Page) (pid uid : Nat)
    (title content : Option String) : UpdateResult × List Page :=
  match title with
  | none => (.validationError "Title is required.", pages)
  | some t =>
    if t = "" then (.validationError "Title is required.", pages)
    else
      (if pages.countP (pageMatch pid uid) = 0 then
        .notFoundOrForbidden "Page not found or you don\x27t have permission to edit it."
      else .updated "Page updated successfully.",
        pages.map (updFun pid uid t content))

/-- Response of `DELETE /api/pages/:id` (server.js lines 184-199):
`deleted` is the 204 No Content answer. -/
inductive DeleteResult where
  | notFoundOrForbidden (msg : String)
  | deleted
deriving DecidableEq, Repr

/-- HTTP status of each delete response. -/
def DeleteResult.status : DeleteResult → Nat
  | .notFoundOrForbidden _ => 404
  | .deleted => 204

/-- Model of `DELETE /api/pages/:id`: `DELETE FROM pages WHERE id = ? AND
userId = ?` removes every matching row; zero matched rows → 404. -/
def deletePage (pages : List Page) (pid uid : Nat) : DeleteResult × List Page :=
  (if pages.countP (pageMatch pid uid) = 0 then
    .notFoundOrForbidden "Page not found or you don\x27t have permission to delete it."
  else .deleted,
    pages.filter (fun p => ! pageMatch pid uid p))

/-- Ids are pairwise distinct in a well-formed table (the PRIMARY KEY
constraint). -/
def IdsDistinct (pages : List Page) : Prop :=
  pages.Pairwise (fun a b => a.id ≠ b.id)

/-- State of the `pages` table together with its AUTOINCREMENT counter. -/
structure DbState where
  pages : List Page
  nextId : Nat
deriving Repr

/-- One authenticated page operation, with the acting `uid` taken from the
verified token. -/
inductive Op where
  | createOp (uid : Nat) (title content : Option String)
  | updateOp (pid uid : Nat) (title content : Option String)
  | deleteOp (pid uid : Nat)
deriving Repr

/-- Running one operation against the table.  The AUTOINCREMENT counter
advances exactly when a row was inserted. -/
def applyOp (s : DbState) : Op → DbState
  | .createOp uid title content =>
    match createPage s.pages s.nextId uid title content with
    | (.created _ _ _ _, pages2) => { pages := pages2, nextId := s.nextId + 1 }
    | (_, pages2) => { pages := pages2, nextId := s.nextId }
  | .updateOp pid uid title content =>
    { pages := (updatePage s.pages pid uid title content).2, nextId := s.nextId }
  | .deleteOp pid uid =>
    { pages := (deletePage s.pages pid uid).2, nextId := s.nextId }

/-- Running a sequence of operations. -/
def runOps (s : DbState) : List Op → DbState
  | [] => s
  | op :: ops => runOps (applyOp s op) ops

/-- Well-formedness of the table state: distinct primary keys, all below
the AUTOINCREMENT counter. -/
def WF (s : DbState) : Prop :=
  IdsDistinct s.pages ∧ ∀ p ∈ s.pages, p.id < s.nextId

/-! Helper lemmas. -/

/-- Splitting a space-free word yields the single-element list. -/
theorem splitSp_no_space (s : Str) (h : ' ' ∉ s) : splitSp s = [s] := by
  induction s with
  | nil => rfl
  | cons c cs ih =>
    have hc : c ≠ ' ' := fun hcc => h (hcc ▸ List.mem_cons_self c cs)
    have hcs : ' ' ∉ cs := fun hm => h (List.mem_cons_of_mem c hm)
    simp [splitSp, hc, ih hcs]

/-- Splitting around the first space: a space-free head word comes off
whole. -/
theorem splitSp_append (a b : Str) (ha : ' ' ∉ a) :
    splitSp (a ++ ' ' :: b) = a :: splitSp b := by
  induction a with
  | nil => simp [splitSp]
  | cons c cs ih =>
    have hc : c ≠ ' ' := fun hcc => ha (hcc ▸ List.mem_cons_self c cs)
    have hcs : ' ' ∉ cs := fun hm => ha (List.mem_cons_of_mem c hm)
    simp [splitSp, hc, ih hcs]

/-- Mapping a function that fixes every element of a list is the
identity. -/
theorem map_eq_self_of_fixes {α : Type} (l : List α) (f : α → α)
    (h : ∀ x ∈ l, f x = x) : l.map f = l := by
  induction l with
  | nil => rfl
  | cons a l ih =>
    rw [List.map_cons, h a (List.mem_cons_self a l),
      ih (fun x hx => h x (List.mem_cons_of_mem a hx))]

/-- With pairwise-distinct ids, a page is determined by its id. -/
theorem eq_of_mem_of_id_eq {pages : List Page} (huniq : IdsDistinct pages)
    {p q : Page} (hp : p ∈ pages) (hq : q ∈ pages) (hid : p.id = q.id) :
    p = q := by
  induction pages with
  | nil => cases hp
  | cons a l ih =>
    have hrest := List.pairwise_cons.mp huniq
    rcases List.mem_cons.mp hp with hpa | hpl <;>
      rcases List.mem_cons.mp hq with hqa | hql
    · exact hpa.trans hqa.symm
    · exact absurd (hpa ▸ hid) (hrest.1 q hql)
    · exact absurd (hqa ▸ hid).symm (hrest.1 p hpl)
    · exact ih hrest.2 hpl hql

/-- If no row of the table matches `(pid, uid)`, the matched-row count is
zero. -/
theorem countP_pageMatch_zero {pages : List Page} {pid uid : Nat}
    (h : ∀ p ∈ pages, pageMatch pid uid p = false) :
    pages.countP (pageMatch pid uid) = 0 := by
  rw [List.countP_eq_zero]
  intro p hp
  simp [h p hp]

/-- A page owned by someone else never matches `(its id, other uid)` when
ids are distinct: every row with that id is that page, whose owner
differs. -/
theorem pageMatch_false_of_other_owner {pages : List Page} {p : Page}
    {uid : Nat} (huniq : IdsDistinct pages) (hp : p ∈ pages)
    (hne : p.userId ≠ uid) :
    ∀ q ∈ pages, pageMatch p.id uid q = false := by
  intro q hq
  by_cases hid : q.id = p.id
  · have hqp : p = q := eq_of_mem_of_id_eq huniq hp hq hid.symm
    subst hqp
    simp [pageMatch, hne]
  · simp [pageMatch, hid]

/-- JavaScript `(some s) || ''` is `s` itself: directly for non-empty `s`,
and for `s = ""` because the default is again the empty string. -/
theorem jsOrEmpty_some (s : String) : jsOrEmpty (some s) = s := by
  by_cases h : s = "" <;> simp [jsOrEmpty, h]

/-- A page whose id is below a fresh id never matches it. -/
theorem pageMatch_false_of_lt {p : Page} {nid uid : Nat} (h : p.id < nid) :
    pageMatch nid uid p = false := by
  simp [pageMatch, Nat.ne_of_lt h]

/-- Unfolding of `createPage` at a present, non-empty title. -/
theorem createPage_some (pages : List Page) (nid uid : Nat) (t : String)
    (content : Option String) (ht : t ≠ "") :
    createPage pages nid uid (some t) content =
      (.created nid t content uid,
        pages ++ [{ id := nid, title := t, content := some (jsOrEmpty content),
                    userId := uid }]) := by
  simp only [createPage]
  rw [if_neg ht]

/-- Unfolding of `updatePage` at a present, non-empty title. -/
theorem updatePage_some (pages : List Page) (pid uid : Nat) (t : String)
    (content : Option String) (ht : t ≠ "") :
    updatePage pages pid uid (some t) content =
      (if pages.countP (pageMatch pid uid) = 0 then
        .notFoundOrForbidden "Page not found or you don\x27t have permission to edit it."
      else .updated "Page updated successfully.",
        pages.map (updFun pid uid t content)) := by
  simp only [updatePage]
  rw [if_neg ht]

/-- The rows after an update, independently of the response branch. -/
theorem updatePage_snd (pages : List Page) (pid uid : Nat) (t : String)
    (content : Option String) (ht : t ≠ "") :
    (updatePage pages pid uid (some t) content).2 =
      pages.map (updFun pid uid t content) := by
  rw [updatePage_some pages pid uid t content ht]

/-- An update whose WHERE condition matches no row answers 404 and leaves
the table unchanged. -/
theorem updatePage_404 (pages : List Page) (pid uid : Nat) (t : String)
    (c : Option String) (ht : t ≠ "")
    (h : ∀ p ∈ pages, pageMatch pid uid p = false) :
    updatePage pages pid uid (some t) c =
      (.notFoundOrForbidden "Page not found or you don\x27t have permission to edit it.",
        pages) := by
  have hmap : pages.map (updFun pid uid t c) = pages :=
    map_eq_self_of_fixes pages _ (fun q hq => by simp [updFun, h q hq])
  rw [updatePage_some pages pid uid t c ht,
    if_pos (countP_pageMatch_zero h), hmap]

/-- An update whose WHERE condition matches some row succeeds, mapping the
overwrite over the table. -/
theorem updatePage_200 (pages : List Page) (pid uid : Nat) (t : String)
    (c : Option String) (ht : t ≠ "") (q : Page) (hq : q ∈ pages)
    (hm : pageMatch pid uid q = true) :
    updatePage pages pid uid (some t) c =
      (.updated "Page updated successfully.",
        pages.map (updFun pid uid t c)) := by
  have hc : pages.countP (pageMatch pid uid) ≠ 0 := by
    have hpos : 0 < pages.countP (pageMatch pid uid) :=
      List.countP_pos_iff.mpr ⟨q, hq, hm⟩
    omega
  rw [updatePage_some pages pid uid t c ht, if_neg hc]

/-- A delete whose WHERE condition matches no row answers 404 and leaves
the table unchanged. -/
theorem deletePage_404 (pages : List Page) (pid uid : Nat)
    (h : ∀ p ∈ pages, pageMatch pid uid p = false) :
    deletePage pages pid uid =
      (.notFoundOrForbidden "Page not found or you don\x27t have permission to delete it.",
        pages) := by
  have hfil : pages.filter (fun p => ! pageMatch pid uid p) = pages :=
    List.filter_eq_self.mpr (fun q hq => by simp [h q hq])
  unfold deletePage
  rw [if_pos (countP_pageMatch_zero h), hfil]

/-- A delete whose WHERE condition matches some row answers 204, filtering
the matching rows out. -/
theorem deletePage_204 (pages : List Page) (pid uid : Nat) (q : Page)
    (hq : q ∈ pages) (hm : pageMatch pid uid q = true) :
    deletePage pages pid uid =
      (.deleted, pages.filter (fun p => ! pageMatch pid uid p)) := by
  have hc : pages.countP (pageMatch pid uid) ≠ 0 := by
    have hpos : 0 < pages.countP (pageMatch pid uid) :=
      List.countP_pos_iff.mpr ⟨q, hq, hm⟩
    omega
  unfold deletePage
  rw [if_neg hc]

/-- Every row after an update descends from a row with the same id and
owner. -/
theorem mem_updatePage_snd {pages : List Page} {pid uid : Nat}
    {title content : Option String} {q : Page}
    (hq : q ∈ (updatePage pages pid uid title content).2) :
    ∃ r ∈ pages, r.id = q.id ∧ r.userId = q.userId := by
  cases title with
  | none => exact ⟨q, hq, rfl, rfl⟩
  | some t =>
    by_cases ht : t = ""
    · subst ht
      exact ⟨q, hq, rfl, rfl⟩
    · rw [updatePage_snd pages pid uid t content ht] at hq
      rcases List.mem_map.mp hq with ⟨q0, hq0, hfq⟩
      by_cases hm : pageMatch pid uid q0
      · rw [updFun, if_pos hm] at hfq
        exact ⟨q0, hq0, by rw [← hfq], by rw [← hfq]⟩
      · rw [updFun, if_neg hm] at hfq
        subst hfq
        exact ⟨q0, hq0, rfl, rfl⟩

/-- Creating with a valid title advances the table and the counter. -/
theorem applyOp_create_ok (s : DbState) (uid : Nat) (t : String)
    (c : Option String) (ht : t ≠ "") :
    applyOp s (.createOp uid (some t) c) =
      ⟨s.pages ++ [⟨s.nextId, t, some (jsOrEmpty c), uid⟩], s.nextId + 1⟩ := by
  simp only [applyOp]
  rw [createPage_some s.pages s.nextId uid t c ht]

/-- The AUTOINCREMENT counter never decreases. -/
theorem applyOp_nextId_mono (s : DbState) (op : Op) :
    s.nextId ≤ (applyOp s op).nextId := by
  cases op with
  | createOp uid title content =>
    cases title with
    | none => exact Nat.le_refl _
    | some t =>
      by_cases ht : t = ""
      · subst ht
        exact Nat.le_refl _
      · rw [applyOp_create_ok s uid t content ht]
        exact Nat.le_succ _
  | updateOp pid uid title content => exact Nat.le_refl _
  | deleteOp pid uid => exact Nat.le_refl _

/-- Every row after one operation is either the freshly inserted row or
descends from a row with the same id and owner. -/
theorem mem_applyOp_pages {s : DbState} {op : Op} {q : Page}
    (hq : q ∈ (applyOp s op).pages) :
    q.id = s.nextId ∨ ∃ r ∈ s.pages, r.id = q.id ∧ r.userId = q.userId := by
  cases op with
  | createOp uid title content =>
    cases title with
    | none => exact Or.inr ⟨q, hq, rfl, rfl⟩
    | some t =>
      by_cases ht : t = ""
      · subst ht
        exact Or.inr ⟨q, hq, rfl, rfl⟩
      · rw [applyOp_create_ok s uid t content ht] at hq
        rcases List.mem_append.mp hq with h | h
        · exact Or.inr ⟨q, h, rfl, rfl⟩
        · left
          rw [List.mem_singleton.mp h]
  | updateOp pid uid title content =>
    have hq2 : q ∈ (updatePage s.pages pid uid title content).2 := hq
    exact Or.inr (mem_updatePage_snd hq2)
  | deleteOp pid uid =>
    have hq2 : q ∈ s.pages.filter (fun p => ! pageMatch pid uid p) := hq
    exact Or.inr ⟨q, (List.mem_filter.mp hq2).1, rfl, rfl⟩

/-- The overwrite function keeps the primary key. -/
theorem updFun_id (pid uid : Nat) (t : String) (c : Option String) (p : Page) :
    (updFun pid uid t c p).id = p.id := by
  by_cases hm : pageMatch pid uid p <;> simp [updFun, hm]

/-- The overwrite function keeps the owner. -/
theorem updFun_userId (pid uid : Nat) (t : String) (c : Option String) (p : Page) :
    (updFun pid uid t c p).userId = p.userId := by
  by_cases hm : pageMatch pid uid p <;> simp [updFun, hm]

/-- Well-formedness of the table state is preserved by every operation. -/
theorem WF_applyOp {s : DbState} (op : Op) (h : WF s) : WF (applyOp s op) := by
  cases op with
  | createOp uid title content =>
    cases title with
    | none => exact h
    | some t =>
      by_cases ht : t = ""
      · subst ht
        exact h
      · rw [applyOp_create_ok s uid t content ht]
        constructor
        · refine List.pairwise_append.mpr ⟨h.1, List.pairwise_singleton _ _, ?_⟩
          intro a ha b hb
          rw [List.mem_singleton.mp hb]
          exact Nat.ne_of_lt (h.2 a ha)
        · intro p hp
          rcases List.mem_append.mp hp with h1 | h1
          · exact Nat.lt_succ_of_lt (h.2 p h1)
          · rw [List.mem_singleton.mp h1]
            exact Nat.lt_succ_self _
  | updateOp pid uid title content =>
    cases title with
    | none => exact h
    | some t =>
      by_cases ht : t = ""
      · subst ht
        exact h
      · have hpages : (applyOp s (.updateOp pid uid (some t) content)).pages =
            s.pages.map (updFun pid uid t content) :=
          updatePage_snd s.pages pid uid t content ht
        constructor
        · rw [hpages]
          refine List.pairwise_map.mpr ?_
          refine h.1.imp ?_
          intro a b hab
          rw [updFun_id, updFun_id]
          exact hab
        · intro p hp
          rw [hpages] at hp
          rcases List.mem_map.mp hp with ⟨q0, hq0, hfq⟩
          have hqid : p.id = q0.id := by rw [← hfq, updFun_id]
          rw [hqid]
          exact h.2 q0 hq0
  | deleteOp pid uid =>
    constructor
    · exact List.Pairwise.sublist (List.filter_sublist _) h.1
    · intro p hp
      have hp2 : p ∈ s.pages.filter (fun x => ! pageMatch pid uid x) := hp
      exact h.2 p (List.mem_filter.mp hp2).1

/-- An id strictly below the counter that is absent from the table never
reappears under any sequence of operations. -/
theorem id_dead_run (ops : List Op) (s : DbState) (i : Nat)
    (hlt : i < s.nextId) (hdead : ∀ r ∈ s.pages, r.id ≠ i) :
    ∀ q ∈ (runOps s ops).pages, q.id ≠ i := by
  induction ops generalizing s with
  | nil => exact hdead
  | cons op ops ih =>
    refine ih (applyOp s op)
      (lt_of_lt_of_le hlt (applyOp_nextId_mono s op)) ?_
    intro r hr hri
    rcases mem_applyOp_pages hr with hnew | ⟨r0, hr0, hid0, _⟩
    · omega
    · exact hdead r0 hr0 (hid0.trans hri)

/-- Along any sequence of operations on a well-formed table, a surviving
row keeps the owner of the original row with its id. -/
theorem owner_stable_run (ops : List Op) (s : DbState) (p : Page)
    (hWF : WF s) (hp : p ∈ s.pages) :
    ∀ q ∈ (runOps s ops).pages, q.id = p.id → q.userId = p.userId := by
  induction ops generalizing s p with
  | nil =>
    intro q hq hid
    have hqp : q = p := eq_of_mem_of_id_eq hWF.1 hq hp hid
    rw [hqp]
  | cons op ops ih =>
    intro q hq hid
    by_cases hex : ∃ p2 ∈ (applyOp s op).pages, p2.id = p.id ∧ p2.userId = p.userId
    · rcases hex with ⟨p2, hp2, hpid, huid⟩
      rw [← huid]
      exact ih (applyOp s op) p2 (WF_applyOp op hWF) hp2 q hq (hid.trans hpid.symm)
    · exfalso
      have hdead : ∀ r ∈ (applyOp s op).pages, r.id ≠ p.id := by
        intro r hr hrid
        rcases mem_applyOp_pages hr with hnew | ⟨r0, hr0, hid0, huid0⟩
        · have hpb := hWF.2 p hp
          omega
        · have hr0p : r0 = p :=
            eq_of_mem_of_id_eq hWF.1 hr0 hp (hid0.trans hrid)
          exact hex ⟨r, hr, hrid, by rw [← huid0, hr0p]⟩
      exact id_dead_run ops (applyOp s op) p.id
        (lt_of_lt_of_le (hWF.2 p hp) (applyOp_nextId_mono s op)) hdead q hq hid

/-! Claim theorems. -/

/-- Claim C3.  The authentication guard: an absent authorization header, or
one with no second space-separated part (no extractable bearer token),
is rejected with 401 before any page operation can run (`proceed` is the
only outcome that reaches a route); a token that is present but fails
verification is rejected with 403; a token that verifies is attached as the
request identity and the request proceeds. -/
theorem guard_rejects_and_attaches (verify : Str → Option Identity) :
    (authenticateToken verify none = .unauthenticated ∧
      (authenticateToken verify none).sentStatus = some 401) ∧
    (∀ s : Str, s ≠ [] → (splitSp s)[1]? = none →
      authenticateToken verify (some s) = .unauthenticated ∧
      (authenticateToken verify (some s)).sentStatus = some 401) ∧
    (∀ h t, extractToken h = some t → verify t = none →
      authenticateToken verify h = .forbidden ∧
      (authenticateToken verify h).sentStatus = some 403) ∧
    (∀ h t u, extractToken h = some t → verify t = some u →
      authenticateToken verify h = .proceed u) := by
  refine ⟨⟨rfl, rfl⟩, ?_, ?_, ?_⟩
  · intro s hs hsplit
    constructor <;>
      simp [authenticateToken, extractToken, hs, hsplit, AuthResult.sentStatus]
  · intro h t hext hv
    constructor <;>
      simp [authenticateToken, hext, hv, AuthResult.sentStatus]
  · intro h t u hext hv
    simp [authenticateToken, hext, hv]

/-- Witness for C3 at concrete inputs: a missing header and the header
"Bearer" (no token part) are 401; the header "Bearer bad" with a failing
verifier is 403; the header "Bearer good" with a verifier accepting "good"
proceeds as identity 1. -/
theorem guard_rejects_and_attaches_witness :
    (authenticateToken (fun _ => none) none = .unauthenticated ∧
      (authenticateToken (fun _ => none) none).sentStatus = some 401) ∧
    (authenticateToken (fun _ => none) (some "Bearer".data) = .unauthenticated ∧
      (authenticateToken (fun _ => none) (some "Bearer".data)).sentStatus = some 401) ∧
    (authenticateToken (fun _ => none) (some "Bearer bad".data) = .forbidden ∧
      (authenticateToken (fun _ => none) (some "Bearer bad".data)).sentStatus = some 403) ∧
    (authenticateToken
        (fun t => if t = "good".data then some ⟨1, "a@b.c"⟩ else none)
        (some "Bearer good".data) = .proceed ⟨1, "a@b.c"⟩) := by
  refine ⟨(guard_rejects_and_attaches (fun _ => none)).1, ?_, ?_, ?_⟩
  · exact (guard_rejects_and_attaches (fun _ => none)).2.1 "Bearer".data
      (by decide) (by decide)
  · exact (guard_rejects_and_attaches (fun _ => none)).2.2.1 (some "Bearer bad".data)
      "bad".data (by decide) rfl
  · exact (guard_rejects_and_attaches _).2.2.2 (some "Bearer good".data)
      "good".data ⟨1, "a@b.c"⟩ (by decide) (by decide)

/-- Claim C9.  The guard never inspects the scheme word of the
authorization header: for any header of the form `scheme ++ " " ++ t`
(scheme and token space-free) whose second space-separated part `t`
verifies to identity `u`, the request is authenticated as `u`, whatever the
scheme word is — "Basic t" or "X t" is accepted exactly like "Bearer t". -/
theorem guard_ignores_scheme (verify : Str → Option Identity)
    (scheme t : Str) (u : Identity)
    (hs : ' ' ∉ scheme) (ht : ' ' ∉ t) (hv : verify t = some u) :
    authenticateToken verify (some (scheme ++ ' ' :: t)) = .proceed u := by
  have hne : scheme ++ ' ' :: t ≠ [] := by simp
  have hsplit : (splitSp (scheme ++ ' ' :: t))[1]? = some t := by
    rw [splitSp_append scheme t hs, splitSp_no_space t ht]
    rfl
  simp [authenticateToken, extractToken, hne, hsplit, hv]

/-- Witness for C9: the header "Basic tok" (scheme word not "Bearer")
authenticates as the subject of "tok" under a verifier that accepts
"tok". -/
theorem guard_ignores_scheme_witness :
    authenticateToken
      (fun t => if t = "tok".data then some ⟨7, "p@q.r"⟩ else none)
      (some ("Basic tok".data)) = .proceed ⟨7, "p@q.r"⟩ := by
  have h := guard_ignores_scheme
    (fun t => if t = "tok".data then some ⟨7, "p@q.r"⟩ else none)
    "Basic".data "tok".data ⟨7, "p@q.r"⟩ (by decide) (by decide) (by decide)
  exact h

/-- Claim C4.  A token issued for principal P at time `tIss` carries
expiry `tIss + 3600` (the fixed 1-hour TTL): verified at any `tChk` at or
after expiry it is rejected as expired and the middleware callback answers
403 (Forbidden); verified at any `tChk` before expiry with the correct
secret it resolves exactly to the embedded id and email of P. -/
theorem token_expiry_and_identity (secret : String) (uid : Nat) (email : String)
    (tIss tChk : Nat) :
    (tIss + 3600 ≤ tChk →
      jwtVerify secret (jwtSign secret uid email tIss) tChk = .expiredToken ∧
      verifyCallback (jwtVerify secret (jwtSign secret uid email tIss) tChk) =
        .forbidden ∧
      (verifyCallback (jwtVerify secret (jwtSign secret uid email tIss) tChk)).sentStatus
        = some 403) ∧
    (tChk < tIss + 3600 →
      jwtVerify secret (jwtSign secret uid email tIss) tChk =
        .valid ⟨uid, email⟩) := by
  constructor
  · intro hexp
    have hver : jwtVerify secret (jwtSign secret uid email tIss) tChk = .expiredToken := by
      simp [jwtVerify, jwtSign, hexp]
    exact ⟨hver, by rw [hver]; rfl, by rw [hver]; rfl⟩
  · intro hlt
    simp [jwtVerify, jwtSign, Nat.not_le.mpr hlt]

/-- Witness for C4: a token issued at time 0 for principal 5 is expired
(hence 403) at time 3600, and resolves to the identity of principal 5 at
time 3599. -/
theorem token_expiry_and_identity_witness :
    (jwtVerify "k" (jwtSign "k" 5 "e@f.g" 0) 3600 = .expiredToken ∧
      verifyCallback (jwtVerify "k" (jwtSign "k" 5 "e@f.g" 0) 3600) = .forbidden ∧
      (verifyCallback (jwtVerify "k" (jwtSign "k" 5 "e@f.g" 0) 3600)).sentStatus
        = some 403) ∧
    jwtVerify "k" (jwtSign "k" 5 "e@f.g" 0) 3599 = .valid ⟨5, "e@f.g"⟩ :=
  ⟨(token_expiry_and_identity "k" 5 "e@f.g" 0 3600).1 (by decide),
   (token_expiry_and_identity "k" 5 "e@f.g" 0 3599).2 (by decide)⟩

/-- Claim C2.  Login with a registered email but wrong password and login
with an unregistered email produce the same result: the literal
`invalidCredentials "Invalid credentials."` response with status 401 in
both cases, so nothing in the observable outcome distinguishes the two
causes. -/
theorem login_no_account_enumeration (db : List User)
    (checkPw : String → String → Bool) (secret : String) (now : Nat)
    (e1 p1 e2 p2 : String) (he1 : e1 ≠ "") (hp1 : p1 ≠ "")
    (he2 : e2 ≠ "") (hp2 : p2 ≠ "")
    (u : User) (hfound : db.find? (fun v => v.email == e1) = some u)
    (hwrong : checkPw p1 u.password = false)
    (hnone : db.find? (fun v => v.email == e2) = none) :
    login db checkPw secret now e1 p1 =
        .invalidCredentials "Invalid credentials." ∧
    login db checkPw secret now e2 p2 =
        .invalidCredentials "Invalid credentials." ∧
    login db checkPw secret now e1 p1 = login db checkPw secret now e2 p2 ∧
    (login db checkPw secret now e1 p1).status = 401 ∧
    (login db checkPw secret now e2 p2).status = 401 := by
  have h1 : login db checkPw secret now e1 p1 =
      .invalidCredentials "Invalid credentials." := by
    simp [login, he1, hp1, hfound, hwrong]
  have h2 : login db checkPw secret now e2 p2 =
      .invalidCredentials "Invalid credentials." := by
    simp [login, he2, hp2, hnone]
  refine ⟨h1, h2, h1.trans h2.symm, ?_, ?_⟩
  · rw [h1]; rfl
  · rw [h2]; rfl

/-- Witness for C2: with one stored user `a@b.c` and a password check that
always fails, logging in as `a@b.c` (wrong password) and as the
unregistered `x@y.z` both give the identical 401 response. -/
theorem login_no_account_enumeration_witness :
    login [⟨1, "a@b.c", "HASH"⟩] (fun _ _ => false) "k" 0 "a@b.c" "wrong" =
        .invalidCredentials "Invalid credentials." ∧
    login [⟨1, "a@b.c", "HASH"⟩] (fun _ _ => false) "k" 0 "x@y.z" "pw" =
        .invalidCredentials "Invalid credentials." ∧
    login [⟨1, "a@b.c", "HASH"⟩] (fun _ _ => false) "k" 0 "a@b.c" "wrong" =
      login [⟨1, "a@b.c", "HASH"⟩] (fun _ _ => false) "k" 0 "x@y.z" "pw" ∧
    (login [⟨1, "a@b.c", "HASH"⟩] (fun _ _ => false) "k" 0 "a@b.c" "wrong").status
        = 401 ∧
    (login [⟨1, "a@b.c", "HASH"⟩] (fun _ _ => false) "k" 0 "x@y.z" "pw").status
        = 401 :=
  login_no_account_enumeration [⟨1, "a@b.c", "HASH"⟩] (fun _ _ => false) "k" 0
    "a@b.c" "wrong" "x@y.z" "pw" (by decide) (by decide) (by decide) (by decide)
    ⟨1, "a@b.c", "HASH"⟩ (by decide) rfl (by decide)

/-- Counterexample for C5 as stated: the claim quantifies over any second
password, but registering `a@b.c` again with the empty password fails the
field validation first, yielding 400 `validationError`, not the claimed 409
`DuplicateEmail`. -/
theorem register_duplicate_cex :
    (register [] (fun s => s) 1 "a@b.c" "p1").1 =
        .created "User created successfully." 1 ∧
    (register (register [] (fun s => s) 1 "a@b.c" "p1").2 (fun s => s) 2
        "a@b.c" "").1 =
      .validationError "Email and password are required." ∧
    (register (register [] (fun s => s) 1 "a@b.c" "p1").2 (fun s => s) 2
        "a@b.c" "").1.status = 400 := by
  refine ⟨rfl, rfl, rfl⟩

/-- Claim C5, amended.  For any non-empty second password (one that passes
field validation): after a successful `register(e, p1)`, a second
`register(e, p2)` always fails with `DuplicateEmail` (409) and leaves the
user table unchanged — the unique-constraint violation is surfaced as the
domain error 409, not a raw 500 storage error.  (An empty second password
instead fails field validation with 400 before reaching storage.) -/
theorem register_duplicate_email (db : List User) (hashPw : String → String)
    (n1 n2 : Nat) (e p1 p2 : String) (hp2 : p2 ≠ "")
    (msg : String) (uid : Nat)
    (hsucc : (register db hashPw n1 e p1).1 = .created msg uid) :
    (register (register db hashPw n1 e p1).2 hashPw n2 e p2).1 =
        .duplicateEmail "Email already in use." ∧
    (register (register db hashPw n1 e p1).2 hashPw n2 e p2).1.status = 409 ∧
    (register (register db hashPw n1 e p1).2 hashPw n2 e p2).2 =
        (register db hashPw n1 e p1).2 := by
  by_cases hval : e = "" ∨ p1 = ""
  · simp [register, hval] at hsucc
  by_cases hdup : db.any (fun u => u.email == e)
  · simp [register, hval, hdup] at hsucc
  have he : e ≠ "" := fun h => hval (Or.inl h)
  have hdb2 : (register db hashPw n1 e p1).2 =
      db ++ [{ id := n1, email := e, password := hashPw p1 }] := by
    simp [register, hval, hdup]
  have hmem : { id := n1, email := e, password := hashPw p1 } ∈
      (register db hashPw n1 e p1).2 := by
    rw [hdb2]
    exact List.mem_append_right db (List.mem_singleton_self _)
  have hany : ∃ u ∈ (register db hashPw n1 e p1).2, u.email = e :=
    ⟨_, hmem, rfl⟩
  have heq : register (register db hashPw n1 e p1).2 hashPw n2 e p2 =
      (.duplicateEmail "Email already in use.",
        (register db hashPw n1 e p1).2) := by
    generalize (register db hashPw n1 e p1).2 = db2 at hany
    simp [register, he, hp2, hany]
  rw [heq]
  exact ⟨rfl, rfl, rfl⟩

/-- Witness for C5 (amended): registering `a@b.c` with "p1" then again with
the non-empty "p2" yields 409 and an unchanged table. -/
theorem register_duplicate_email_witness :
    (register (register [] (fun s => s) 1 "a@b.c" "p1").2 (fun s => s) 2
        "a@b.c" "p2").1 = .duplicateEmail "Email already in use." ∧
    (register (register [] (fun s => s) 1 "a@b.c" "p1").2 (fun s => s) 2
        "a@b.c" "p2").1.status = 409 ∧
    (register (register [] (fun s => s) 1 "a@b.c" "p1").2 (fun s => s) 2
        "a@b.c" "p2").2 = (register [] (fun s => s) 1 "a@b.c" "p1").2 :=
  register_duplicate_email [] (fun s => s) 1 2 "a@b.c" "p1" "p2" (by decide)
    "User created successfully." 1 rfl

/-- Claim C1.  Ownership isolation: a page owned by principal `p1` is
invisible and untouchable for any other principal `p2` — the list for `p2`
never contains a row with its id, and an update (with a valid title) or
delete by `p2` on its id answers the 404 `notFoundOrForbidden` response
and leaves the table exactly as it was. -/
theorem ownership_isolation (pages : List Page) (p : Page) (p1 p2 : Nat)
    (hmem : p ∈ pages) (hown : p.userId = p1) (hne : p1 ≠ p2)
    (huniq : IdsDistinct pages) (t : String) (ht : t ≠ "")
    (c : Option String) :
    (∀ r ∈ listPages pages p2, r.id ≠ p.id) ∧
    updatePage pages p.id p2 (some t) c =
      (.notFoundOrForbidden "Page not found or you don\x27t have permission to edit it.",
        pages) ∧
    (updatePage pages p.id p2 (some t) c).1.status = 404 ∧
    deletePage pages p.id p2 =
      (.notFoundOrForbidden "Page not found or you don\x27t have permission to delete it.",
        pages) ∧
    (deletePage pages p.id p2).1.status = 404 := by
  have hown2 : p.userId ≠ p2 := hown ▸ hne
  have hfalse := pageMatch_false_of_other_owner huniq hmem hown2
  have hlist : ∀ r ∈ listPages pages p2, r.id ≠ p.id := by
    intro r hr hid
    rcases List.mem_map.mp hr with ⟨q, hq, hqr⟩
    have hq2 := List.mem_filter.mp hq
    have hqid : q.id = p.id := by rw [← hid, ← hqr]
    have hqp : q = p := eq_of_mem_of_id_eq huniq hq2.1 hmem hqid
    subst hqp
    exact hown2 (by simpa using hq2.2)
  have hupd := updatePage_404 pages p.id p2 t c ht hfalse
  have hdel := deletePage_404 pages p.id p2 hfalse
  exact ⟨hlist, hupd, by rw [hupd]; rfl, hdel, by rw [hdel]; rfl⟩

/-- Witness for C1: with one page owned by principal 1, principal 2 lists
nothing with its id, and its update and delete answer 404 leaving the
table unchanged. -/
theorem ownership_isolation_witness :
    (∀ r ∈ listPages [⟨10, "T", some "C", 1⟩] 2, r.id ≠ 10) ∧
    updatePage [⟨10, "T", some "C", 1⟩] 10 2 (some "X") (some "Y") =
      (.notFoundOrForbidden "Page not found or you don\x27t have permission to edit it.",
        [⟨10, "T", some "C", 1⟩]) ∧
    (updatePage [⟨10, "T", some "C", 1⟩] 10 2 (some "X") (some "Y")).1.status = 404 ∧
    deletePage [⟨10, "T", some "C", 1⟩] 10 2 =
      (.notFoundOrForbidden "Page not found or you don\x27t have permission to delete it.",
        [⟨10, "T", some "C", 1⟩]) ∧
    (deletePage [⟨10, "T", some "C", 1⟩] 10 2).1.status = 404 :=
  ownership_isolation [⟨10, "T", some "C", 1⟩] ⟨10, "T", some "C", 1⟩ 1 2
    (List.mem_singleton_self _) rfl (by decide)
    (List.pairwise_singleton _ _) "X" (by decide) (some "Y")

/-- Claim C6.  CRUD round trip for a principal P on a well-formed table
(all ids below the fresh id): create(P, T, C) returns the fresh id and
appends the row, which the list for P then shows with title T and content
C; update(id, P, T2, C2) succeeds and the list for P shows the page with
title T2 and content C2 (and no other row carries the id); delete(id, P)
succeeds with 204 and the list for P no longer contains the id. -/
theorem crud_round_trip (pages : List Page) (nid P : Nat)
    (T C T2 C2 : String) (hT : T ≠ "") (hT2 : T2 ≠ "")
    (hfresh : ∀ p ∈ pages, p.id < nid) :
    createPage pages nid P (some T) (some C) =
      (.created nid T (some C) P, pages ++ [⟨nid, T, some C, P⟩]) ∧
    (⟨nid, T, some C⟩ : Row) ∈ listPages (pages ++ [⟨nid, T, some C, P⟩]) P ∧
    updatePage (pages ++ [⟨nid, T, some C, P⟩]) nid P (some T2) (some C2) =
      (.updated "Page updated successfully.", pages ++ [⟨nid, T2, some C2, P⟩]) ∧
    (⟨nid, T2, some C2⟩ : Row) ∈ listPages (pages ++ [⟨nid, T2, some C2, P⟩]) P ∧
    (∀ r ∈ listPages (pages ++ [⟨nid, T2, some C2, P⟩]) P,
      r.id = nid → r = ⟨nid, T2, some C2⟩) ∧
    deletePage (pages ++ [⟨nid, T2, some C2, P⟩]) nid P = (.deleted, pages) ∧
    (deletePage (pages ++ [⟨nid, T2, some C2, P⟩]) nid P).1.status = 204 ∧
    (∀ r ∈ listPages pages P, r.id ≠ nid) := by
  have hnomatch : ∀ q ∈ pages, pageMatch nid P q = false :=
    fun q hq => pageMatch_false_of_lt (hfresh q hq)
  have hmapid : pages.map (updFun nid P T2 (some C2)) = pages :=
    map_eq_self_of_fixes pages _ (fun q hq => by simp [updFun, hnomatch q hq])
  have hfilid : pages.filter (fun q => ! pageMatch nid P q) = pages :=
    List.filter_eq_self.mpr (fun q hq => by simp [hnomatch q hq])
  have hcreate : createPage pages nid P (some T) (some C) =
      (.created nid T (some C) P,
        pages ++ [({ id := nid, title := T, content := some C, userId := P } : Page)]) := by
    rw [createPage_some pages nid P T (some C) hT, jsOrEmpty_some]
  have hmem1 : (⟨nid, T, some C⟩ : Row) ∈
      listPages (pages ++ [⟨nid, T, some C, P⟩]) P := by
    refine List.mem_map.mpr
      ⟨({ id := nid, title := T, content := some C, userId := P } : Page), ?_, rfl⟩
    exact List.mem_filter.mpr ⟨List.mem_append_right pages
      (List.mem_singleton_self _), by simp⟩
  have hmatch1 : pageMatch nid P
      ({ id := nid, title := T, content := some C, userId := P } : Page) = true := by
    simp [pageMatch]
  have hupd : updatePage (pages ++ [⟨nid, T, some C, P⟩]) nid P
      (some T2) (some C2) =
      (.updated "Page updated successfully.", pages ++ [⟨nid, T2, some C2, P⟩]) := by
    rw [updatePage_200 (pages ++ [⟨nid, T, some C, P⟩]) nid P T2 (some C2) hT2
        ⟨nid, T, some C, P⟩
        (List.mem_append_right pages (List.mem_singleton_self _)) hmatch1,
      List.map_append, hmapid, List.map_singleton]
    simp [updFun, hmatch1]
  have hmem2 : (⟨nid, T2, some C2⟩ : Row) ∈
      listPages (pages ++ [⟨nid, T2, some C2, P⟩]) P := by
    refine List.mem_map.mpr
      ⟨({ id := nid, title := T2, content := some C2, userId := P } : Page), ?_, rfl⟩
    exact List.mem_filter.mpr ⟨List.mem_append_right pages
      (List.mem_singleton_self _), by simp⟩
  have huniq2 : ∀ r ∈ listPages (pages ++ [⟨nid, T2, some C2, P⟩]) P,
      r.id = nid → r = ⟨nid, T2, some C2⟩ := by
    intro r hr hid
    rcases List.mem_map.mp hr with ⟨q, hq, hqr⟩
    have hq2 := (List.mem_filter.mp hq).1
    rcases List.mem_append.mp hq2 with hql | hqr2
    · have hqid : q.id = r.id := by rw [← hqr]
      exact absurd (hqid.trans hid) (Nat.ne_of_lt (hfresh q hql))
    · rw [List.mem_singleton.mp hqr2] at hqr
      exact hqr.symm
  have hmatch2 : pageMatch nid P
      ({ id := nid, title := T2, content := some C2, userId := P } : Page) = true := by
    simp [pageMatch]
  have hdel : deletePage (pages ++ [⟨nid, T2, some C2, P⟩]) nid P =
      (.deleted, pages) := by
    rw [deletePage_204 (pages ++ [⟨nid, T2, some C2, P⟩]) nid P
        ⟨nid, T2, some C2, P⟩
        (List.mem_append_right pages (List.mem_singleton_self _)) hmatch2,
      List.filter_append, hfilid]
    simp [hmatch2]
  have hgone : ∀ r ∈ listPages pages P, r.id ≠ nid := by
    intro r hr
    rcases List.mem_map.mp hr with ⟨q, hq, hqr⟩
    have hqid : q.id = r.id := by rw [← hqr]
    exact hqid ▸ Nat.ne_of_lt (hfresh q (List.mem_filter.mp hq).1)
  exact ⟨hcreate, hmem1, hupd, hmem2, huniq2, hdel, by rw [hdel]; rfl, hgone⟩

/-- Witness for C6: the round trip on the empty table with fresh id 1 for
principal 9, titles "T"/"T2" and contents "C"/"C2". -/
theorem crud_round_trip_witness :
    createPage [] 1 9 (some "T") (some "C") =
      (.created 1 "T" (some "C") 9, [⟨1, "T", some "C", 9⟩]) ∧
    (⟨1, "T", some "C"⟩ : Row) ∈ listPages [⟨1, "T", some "C", 9⟩] 9 ∧
    updatePage [⟨1, "T", some "C", 9⟩] 1 9 (some "T2") (some "C2") =
      (.updated "Page updated successfully.", [⟨1, "T2", some "C2", 9⟩]) ∧
    (⟨1, "T2", some "C2"⟩ : Row) ∈ listPages [⟨1, "T2", some "C2", 9⟩] 9 ∧
    (∀ r ∈ listPages [⟨1, "T2", some "C2", 9⟩] 9,
      r.id = 1 → r = ⟨1, "T2", some "C2"⟩) ∧
    deletePage [⟨1, "T2", some "C2", 9⟩] 1 9 = (.deleted, []) ∧
    (deletePage [⟨1, "T2", some "C2", 9⟩] 1 9).1.status = 204 ∧
    (∀ r ∈ listPages [] 9, r.id ≠ 1) := by
  have h := crud_round_trip [] 1 9 "T" "C" "T2" "C2" (by decide) (by decide)
    (by intro p hp; cases hp)
  simpa using h

/-- Counterexample for C7 as stated: for a create request that omits
`content`, the success body is `{ id, title, userId }` with NO content
field (`res.json` drops the raw undefined body field on serialisation),
not `content = ""`; only the STORED row defaults to the empty string. -/
theorem create_body_content_cex :
    (createPage [] 1 7 (some "T") none).1 = .created 1 "T" none 7 ∧
    (createPage [] 1 7 (some "T") none).1 ≠ .created 1 "T" (some "") 7 ∧
    (createPage [] 1 7 (some "T") none).2 = [⟨1, "T", some "", 7⟩] := by
  refine ⟨rfl, by decide, rfl⟩

/-- Claim C7, amended.  An authenticated create with a missing or empty
title fails with 400 `validationError` and stores nothing; with a
non-empty title it succeeds with 201, stores the row
`(nextId, title, content || '', userId)` — the stored content defaulting
to the empty string when absent — and answers a body carrying the new id
and the raw input fields `{ id, title, content, userId }`, in which the
content field echoes the request and is absent when the request omitted
it. -/
theorem create_validates_and_stores (pages : List Page) (nid uid : Nat)
    (content : Option String) :
    (createPage pages nid uid none content =
        (.validationError "Title is required.", pages) ∧
      (createPage pages nid uid none content).1.status = 400) ∧
    (createPage pages nid uid (some "") content =
        (.validationError "Title is required.", pages) ∧
      (createPage pages nid uid (some "") content).1.status = 400) ∧
    (∀ t : String, t ≠ "" →
      createPage pages nid uid (some t) content =
          (.created nid t content uid,
            pages ++ [{ id := nid, title := t,
                        content := some (jsOrEmpty content), userId := uid }]) ∧
        (createPage pages nid uid (some t) content).1.status = 201) := by
  refine ⟨⟨rfl, rfl⟩, ⟨rfl, rfl⟩, ?_⟩
  intro t ht
  have h := createPage_some pages nid uid t content ht
  exact ⟨h, by rw [h]; rfl⟩

/-- Witness for C7 (amended): on an empty table, creating with title "T"
and no content answers 201 with body `{1, "T", none, 7}` and stores
`(1, "T", "", 7)`; missing and empty titles answer 400. -/
theorem create_validates_and_stores_witness :
    (createPage [] 1 7 none none =
        (.validationError "Title is required.", []) ∧
      (createPage [] 1 7 none none).1.status = 400) ∧
    (createPage [] 1 7 (some "") none =
        (.validationError "Title is required.", []) ∧
      (createPage [] 1 7 (some "") none).1.status = 400) ∧
    (createPage [] 1 7 (some "T") none =
        (.created 1 "T" none 7, [⟨1, "T", some (jsOrEmpty none), 7⟩]) ∧
      (createPage [] 1 7 (some "T") none).1.status = 201) :=
  ⟨(create_validates_and_stores [] 1 7 none).1,
   (create_validates_and_stores [] 1 7 none).2.1,
   (create_validates_and_stores [] 1 7 none).2.2 "T" (by decide)⟩

/-- Claim C10.  Update is a full overwrite, never partial: an authenticated
update with a valid title whose body omits `content` succeeds and replaces
the content of the matched page with SQL NULL (`none`) — after it, every
row with that id has content `none`, whatever it held before. -/
theorem update_overwrites_content (pages : List Page) (p : Page)
    (uid : Nat) (t : String) (hmem : p ∈ pages) (huniq : IdsDistinct pages)
    (ht : t ≠ "") (huid : p.userId = uid) :
    (updatePage pages p.id uid (some t) none).1 =
        .updated "Page updated successfully." ∧
    { id := p.id, title := t, content := none, userId := uid } ∈
        (updatePage pages p.id uid (some t) none).2 ∧
    (∀ q ∈ (updatePage pages p.id uid (some t) none).2,
      q.id = p.id → q.content = none) := by
  have hmatch : pageMatch p.id uid p = true := by
    simp [pageMatch, huid]
  have h200 := updatePage_200 pages p.id uid t none ht p hmem hmatch
  refine ⟨by rw [h200], ?_, ?_⟩
  · rw [h200]
    show _ ∈ pages.map (updFun p.id uid t none)
    have hrec : ({ id := p.id, title := t, content := none, userId := uid } : Page) =
        updFun p.id uid t none p := by
      simp [updFun, hmatch, huid]
    rw [hrec]
    exact List.mem_map_of_mem _ hmem
  · rw [h200]
    intro q hq hid
    have hq2 : q ∈ pages.map (updFun p.id uid t none) := hq
    rcases List.mem_map.mp hq2 with ⟨q0, hq0, hfq⟩
    by_cases hm : pageMatch p.id uid q0
    · rw [← hfq]
      simp [updFun, hm]
    · have hfix : updFun p.id uid t none q0 = q0 := by simp [updFun, hm]
      rw [hfix] at hfq
      subst hfq
      have heqp : q0 = p := eq_of_mem_of_id_eq huniq hq0 hmem hid
      rw [heqp] at hm
      exact absurd hmatch hm

/-- Witness for C10: updating the single page (id 10, owner 7, content
"old") with title "T2" and no content yields content NULL on every row
with id 10. -/
theorem update_overwrites_content_witness :
    (updatePage [⟨10, "T", some "old", 7⟩] 10 7 (some "T2") none).1 =
        .updated "Page updated successfully." ∧
    (⟨10, "T2", none, 7⟩ : Page) ∈
        (updatePage [⟨10, "T", some "old", 7⟩] 10 7 (some "T2") none).2 ∧
    (∀ q ∈ (updatePage [⟨10, "T", some "old", 7⟩] 10 7 (some "T2") none).2,
      q.id = 10 → q.content = none) :=
  update_overwrites_content [⟨10, "T", some "old", 7⟩] ⟨10, "T", some "old", 7⟩
    7 "T2" (List.mem_singleton_self _) (List.pairwise_singleton _ _)
    (by decide) rfl

/-- Claim C8.  Ownership is fixed at creation and operations are framed:
a create stores the verified caller as the owner of the new row; an update
touches only the title and content of the rows matched by `(id, userId)`
and keeps every id and owner; a delete removes exactly the matched rows
and keeps every other row; and along any sequence of operations on a
well-formed table, a row observed with a given id always carries the owner
that the row with that id had originally — `ownerId` never changes. -/
theorem owner_fixed_and_frame :
    (∀ (pages : List Page) (nid uid : Nat) (t : String) (c : Option String),
      t ≠ "" →
      (createPage pages nid uid (some t) c).2 =
        pages ++ [{ id := nid, title := t, content := some (jsOrEmpty c),
                    userId := uid }]) ∧
    (∀ (pages : List Page) (pid uid : Nat) (t : String) (c : Option String),
      t ≠ "" →
      List.Forall₂ (fun p q =>
        q.id = p.id ∧ q.userId = p.userId ∧
        (pageMatch pid uid p = true → q.title = t ∧ q.content = c) ∧
        (pageMatch pid uid p = false → q = p))
        pages (updatePage pages pid uid (some t) c).2) ∧
    (∀ (pages : List Page) (pid uid : Nat) (q : Page),
      (q ∈ pages → pageMatch pid uid q = false →
        q ∈ (deletePage pages pid uid).2) ∧
      (q ∈ (deletePage pages pid uid).2 →
        q ∈ pages ∧ pageMatch pid uid q = false)) ∧
    (∀ (s : DbState) (ops : List Op) (p q : Page), WF s → p ∈ s.pages →
      q ∈ (runOps s ops).pages → q.id = p.id → q.userId = p.userId) := by
  refine ⟨?_, ?_, ?_, ?_⟩
  · intro pages nid uid t c ht
    rw [createPage_some pages nid uid t c ht]
  · intro pages pid uid t c ht
    rw [updatePage_snd pages pid uid t c ht, List.forall₂_map_right_iff,
      List.forall₂_same]
    intro x hx
    by_cases hm : pageMatch pid uid x <;> simp [updFun, hm]
  · intro pages pid uid q
    constructor
    · intro hq hm
      show q ∈ pages.filter (fun p => ! pageMatch pid uid p)
      exact List.mem_filter.mpr ⟨hq, by simp [hm]⟩
    · intro hq
      have hq2 : q ∈ pages.filter (fun p => ! pageMatch pid uid p) := hq
      have h2 := List.mem_filter.mp hq2
      exact ⟨h2.1, by simpa using h2.2⟩
  · intro s ops p q hWF hp hq hid
    exact owner_stable_run ops s p hWF hp q hq hid

/-- Witness for C8 at concrete inputs: a create by caller 7 stores owner 7;
the update frame holds on a one-page table; a non-matched page survives a
delete; and after an update and a create on the table owning page 0 to
principal 3, every row with id 0 still has owner 3. -/
theorem owner_fixed_and_frame_witness :
    (createPage [] 1 7 (some "T") none).2 =
      [] ++ [{ id := 1, title := "T", content := some (jsOrEmpty none),
               userId := 7 }] ∧
    List.Forall₂ (fun p q =>
        q.id = p.id ∧ q.userId = p.userId ∧
        (pageMatch 0 3 p = true → q.title = "B" ∧ q.content = some "x") ∧
        (pageMatch 0 3 p = false → q = p))
      [⟨0, "A", none, 3⟩]
      (updatePage [⟨0, "A", none, 3⟩] 0 3 (some "B") (some "x")).2 ∧
    (⟨0, "A", none, 3⟩ : Page) ∈ (deletePage [⟨0, "A", none, 3⟩] 5 9).2 ∧
    (∀ q ∈ (runOps ⟨[⟨0, "A", none, 3⟩], 1⟩
        [.updateOp 0 3 (some "B") none, .createOp 4 (some "C") none]).pages,
      q.id = 0 → q.userId = 3) :=
  ⟨owner_fixed_and_frame.1 [] 1 7 "T" none (by decide),
   owner_fixed_and_frame.2.1 [⟨0, "A", none, 3⟩] 0 3 "B" (some "x") (by decide),
   (owner_fixed_and_frame.2.2.1 [⟨0, "A", none, 3⟩] 5 9 ⟨0, "A", none, 3⟩).1
     (List.mem_singleton_self _) (by decide),
   fun q hq hid => owner_fixed_and_frame.2.2.2
     ⟨[⟨0, "A", none, 3⟩], 1⟩
     [.updateOp 0 3 (some "B") none, .createOp 4 (some "C") none]
     ⟨0, "A", none, 3⟩ q
     ⟨List.pairwise_singleton _ _, by intro p hp; rw [List.mem_singleton.mp hp]; decide⟩
     (List.mem_singleton_self _) hq hid⟩

end CMS
